import Mathlib

/-!
Verification of the local-whisper transcription CLI
(`transcribe.js` and the lock-managing variant embedded in `README.md`).

The JavaScript is shallowly embedded: filesystem and OS interactions are
abstracted as explicit state (`FsState`) and oracles (`alive`, `fsExists`),
string manipulation follows the Node/JS semantics of the library calls the
source uses (`path.extname`, `path.basename`, `path.join`,
`String.prototype.replace` with the fixed regex, `parseInt`, `trim`,
`toLowerCase` restricted to ASCII, which covers every extension and
identifier the program compares against).
-/

/-- JS `String.prototype.toLowerCase`, modelled on ASCII characters
(the only characters occurring in the supported-format set and flags). -/
def jsToLower (s : String) : String :=
  ⟨s.data.map Char.toLower⟩

/-- Does the second character list start with the pattern list? -/
def listStarts (pat hay : List Char) : Bool :=
  match pat, hay with
  | [], _ => true
  | _ :: _, [] => false
  | b :: bs, a :: as => if a = b then listStarts bs as else false

/-- Does `pat` occur as a contiguous sublist of the character list? -/
def containsSub (pat : List Char) : List Char → Bool
  | [] => pat.isEmpty
  | c :: cs => listStarts pat (c :: cs) || containsSub pat cs

/-- Substring containment on strings. -/
def strContains (s pat : String) : Bool :=
  containsSub pat.data s.data

/-- JS `String.prototype.trim`: removes whitespace from both ends. -/
def jsTrim (s : String) : String :=
  ⟨((s.data.dropWhile Char.isWhitespace).reverse.dropWhile Char.isWhitespace).reverse⟩

/-- JS `parseInt(s, 10)` on an already-trimmed string: optional sign, then
the longest prefix of decimal digits; `none` models `NaN` (no digits). -/
def parseIntJS (s : String) : Option Int :=
  match s.data with
  | [] => none
  | c :: cs =>
    let signed : Bool × List Char :=
      if c = '-' then (true, cs) else if c = '+' then (false, cs) else (false, c :: cs)
    let digits := signed.2.takeWhile Char.isDigit
    if digits.isEmpty then none
    else
      let n : Nat := digits.foldl (fun acc d => acc * 10 + (d.toNat - '0'.toNat)) 0
      some (if signed.1 then -(n : Int) else (n : Int))

/-!
  ## Single-instance lock (embedded from the variant in README.md)

  `FsState` abstracts the filesystem as seen through `LOCKFILE`:
  `lock` is the content of the lock file (`none` when absent), and the
  three flags model whether `readFileSync`, `unlinkSync`, `writeFileSync`
  on that path succeed or throw.
-/

structure FsState where
  lock : Option String
  readable : Bool
  unlinkable : Bool
  writable : Bool
deriving DecidableEq

inductive AcquireResult where
  /-- `acquireLock` returned normally; the state after the call. -/
  | ok (st : FsState)
  /-- The `process.exit(1)` path (another live instance, no force). -/
  | exited (code : Nat) (st : FsState)
  /-- An exception escaped (`writeFileSync` failed, uncaught). -/
  | threw (st : FsState)
deriving DecidableEq

/-- `fs.unlinkSync(LOCKFILE)` wrapped so a failure leaves the state
unchanged (every unlink in `acquireLock` is covered by the outer catch,
which retries and swallows; in `releaseLock` the whole body is wrapped). -/
def tryUnlink (st : FsState) : FsState :=
  if st.unlinkable then { st with lock := none } else st

/-- `fs.writeFileSync(LOCKFILE, process.pid.toString())` — not wrapped in
any catch in `acquireLock`, so a failure escapes as `threw`. -/
def writeLock (selfPid : Nat) (st : FsState) : AcquireResult :=
  if st.writable then .ok { st with lock := some (toString selfPid) } else .threw st

/-- `acquireLock(force)` from the README-embedded `transcribe.js`.
`alive pid` models `isProcessRunning(pid)` (a `process.kill(pid, 0)` probe,
an OS oracle). The branch structure follows the source: existing lock is
read; unreadable or unparseable or dead-owner locks are removed as stale
and overwritten; a live owner causes `process.exit(1)` without force, or a
kill-and-takeover with force; finally the lock is written with the own pid. -/
def acquireLock (force : Bool) (selfPid : Nat) (alive : Int → Bool) (st : FsState) :
    AcquireResult :=
  match st.lock with
  | none => writeLock selfPid st
  | some content =>
    if st.readable then
      match parseIntJS (jsTrim content) with
      | some pid =>
        if alive pid then
          if force then writeLock selfPid (tryUnlink st)
          else .exited 1 st
        else writeLock selfPid (tryUnlink st)
      | none => writeLock selfPid (tryUnlink st)
    else writeLock selfPid (tryUnlink st)

/-- `releaseLock()` from the README-embedded `transcribe.js`: delete the
lock only when its trimmed content equals the own pid rendered as text;
the whole body sits in a try/catch that swallows every error. -/
def releaseLock (selfPid : Nat) (st : FsState) : FsState :=
  match st.lock with
  | none => st
  | some content =>
    if st.readable then
      if jsTrim content = toString selfPid then tryUnlink st else st
    else st

/-- Auxiliary: a normal return of `writeLock` carries the own pid as content. -/
theorem writeLock_ok_lock {selfPid : Nat} {st st' : FsState}
    (h : writeLock selfPid st = .ok st') : st'.lock = some (toString selfPid) := by
  unfold writeLock at h
  cases hw : st.writable
  · rw [hw] at h; simp at h
  · rw [hw] at h
    simp only [if_true, AcquireResult.ok.injEq] at h
    subst h; rfl

/-- C1: when the stored identifier parses and denotes a live process,
`acquireLock` with `force = false` takes the `process.exit(1)` path and the
lock state (in particular the lock file content) is left unchanged. -/
theorem C1_live_lock_blocks (st : FsState) (content : String) (pid : Int)
    (selfPid : Nat) (alive : Int → Bool)
    (hlock : st.lock = some content) (hread : st.readable = true)
    (hparse : parseIntJS (jsTrim content) = some pid) (halive : alive pid = true) :
    acquireLock false selfPid alive st = .exited 1 st := by
  unfold acquireLock
  rw [hlock]
  simp [hread, hparse, halive]

/-- Witness for C1 at a concrete lock state. -/
theorem C1_live_lock_blocks_witness :
    acquireLock false 7 (fun p => p == 4242) ⟨some "4242", true, true, true⟩ =
      .exited 1 ⟨some "4242", true, true, true⟩ :=
  C1_live_lock_blocks ⟨some "4242", true, true, true⟩ "4242" 4242 7 (fun p => p == 4242)
    rfl rfl (by decide) (by decide)

/-- C5: a stale lock (dead owner, or unparseable content) is removed and
the acquisition succeeds, the new lock holding the identifier of the caller. -/
theorem C5_stale_lock_replaced (st : FsState) (content : String)
    (selfPid : Nat) (alive : Int → Bool)
    (hlock : st.lock = some content) (hread : st.readable = true)
    (hwrite : st.writable = true)
    (hstale : ∀ pid, parseIntJS (jsTrim content) = some pid → alive pid = false) :
    ∃ st', acquireLock false selfPid alive st = .ok st' ∧
      st'.lock = some (toString selfPid) := by
  have hw' : (tryUnlink st).writable = true := by
    unfold tryUnlink; cases hu : st.unlinkable <;> simp [hwrite]
  have hwl : writeLock selfPid (tryUnlink st) =
      .ok { tryUnlink st with lock := some (toString selfPid) } := by
    simp [writeLock, hw']
  refine ⟨{ tryUnlink st with lock := some (toString selfPid) }, ?_, rfl⟩
  unfold acquireLock
  rw [hlock]
  simp only [hread, if_true]
  split
  · rename_i pid hp
    rw [hstale pid hp]
    rw [if_neg (by decide : ¬ (false = true))]
    exact hwl
  · exact hwl

/-- Witness for C5: unparseable lock content, acquisition succeeds. -/
theorem C5_stale_lock_replaced_witness :
    ∃ st', acquireLock false 7 (fun _ => true) ⟨some "garbage", true, true, true⟩ = .ok st' ∧
      st'.lock = some (toString (7 : Nat)) :=
  C5_stale_lock_replaced ⟨some "garbage", true, true, true⟩ "garbage" 7 (fun _ => true)
    rfl rfl rfl (by
      intro pid h
      have hn : parseIntJS (jsTrim "garbage") = none := by decide
      rw [hn] at h
      exact Option.noConfusion h)

/-- C10: whenever `acquireLock` returns normally, the lock file exists and
holds exactly the identifier of the caller, across all branches. -/
theorem C10_acquire_postcondition (force : Bool) (selfPid : Nat)
    (alive : Int → Bool) (st st' : FsState)
    (h : acquireLock force selfPid alive st = .ok st') :
    st'.lock = some (toString selfPid) := by
  unfold acquireLock at h
  split at h
  · exact writeLock_ok_lock h
  · split at h
    · split at h
      · split at h
        · split at h
          · exact writeLock_ok_lock h
          · simp at h
        · exact writeLock_ok_lock h
      · exact writeLock_ok_lock h
    · exact writeLock_ok_lock h

/-- Witness for C10 on the empty-lock branch. -/
theorem C10_acquire_postcondition_witness :
    (FsState.mk (some (toString (9 : Nat))) true true true).lock =
      some (toString (9 : Nat)) :=
  C10_acquire_postcondition false 9 (fun _ => false) ⟨none, true, true, true⟩
    ⟨some (toString (9 : Nat)), true, true, true⟩ rfl

/-- Auxiliary: `releaseLock` on a state without a lock file changes nothing. -/
theorem releaseLock_no_lock (selfPid : Nat) (st : FsState) (h : st.lock = none) :
    releaseLock selfPid st = st := by
  unfold releaseLock; rw [h]

/-- Auxiliary: `releaseLock` either leaves the state unchanged or only
removes the lock file. -/
theorem releaseLock_cases (selfPid : Nat) (st : FsState) :
    releaseLock selfPid st = st ∨ releaseLock selfPid st = { st with lock := none } := by
  unfold releaseLock
  split
  · exact Or.inl rfl
  · split
    · split
      · unfold tryUnlink
        split
        · exact Or.inr rfl
        · exact Or.inl rfl
      · exact Or.inl rfl
    · exact Or.inl rfl

/-- C4: `releaseLock` deletes the lock file exactly when its (trimmed)
stored content is the identifier of the caller; in every other situation,
including an absent lock file, a read failure or an unlink failure, the
state is unchanged; the operation is idempotent and total (the source
swallows every error inside its try/catch). -/
theorem C4_release_frame (selfPid : Nat) :
    (∀ st content, st.lock = some content → st.readable = true → st.unlinkable = true →
        (releaseLock selfPid st = { st with lock := none } ↔
          jsTrim content = toString selfPid))
  ∧ (∀ st content, st.lock = some content → jsTrim content ≠ toString selfPid →
        releaseLock selfPid st = st)
  ∧ (∀ st, st.lock = none → releaseLock selfPid st = st)
  ∧ (∀ st, releaseLock selfPid (releaseLock selfPid st) = releaseLock selfPid st)
  ∧ (∀ st, st.readable = false → releaseLock selfPid st = st)
  ∧ (∀ st, st.unlinkable = false → releaseLock selfPid st = st) := by
  have hnotown : ∀ st content, st.lock = some content →
      jsTrim content ≠ toString selfPid → releaseLock selfPid st = st := by
    intro st content hl hne
    unfold releaseLock
    rw [hl]
    cases hr : st.readable <;> simp [hne]
  refine ⟨?_, hnotown, releaseLock_no_lock selfPid, ?_, ?_, ?_⟩
  · intro st content hl hr hu
    constructor
    · intro h
      by_contra hne
      rw [hnotown st content hl hne] at h
      have h2 := congrArg FsState.lock h
      rw [hl] at h2
      simp at h2
    · intro h
      unfold releaseLock
      rw [hl]
      simp [hr, h, tryUnlink, hu]
  · intro st
    rcases releaseLock_cases selfPid st with h | h
    · rw [h]; exact h
    · rw [h]; exact releaseLock_no_lock selfPid _ rfl
  · intro st hr
    unfold releaseLock
    split
    · rfl
    · rw [hr]
      simp
  · intro st hu
    unfold releaseLock
    split
    · rfl
    · split
      · split
        · unfold tryUnlink
          rw [hu]
          simp
        · rfl
      · rfl

/-- Witness for C4: the owner of the lock removes it. -/
theorem C4_release_frame_witness :
    releaseLock 5 ⟨some "5", true, true, true⟩ = ⟨none, true, true, true⟩ :=
  ((C4_release_frame 5).1 ⟨some "5", true, true, true⟩ "5" rfl rfl rfl).mpr (by decide)

/-!
  ## Path handling (Node `path` module, POSIX) and audio format checks
-/

/-- State machine of Node `path.extname` (POSIX), iterating over the
characters right to left. The state is `(startDot, startPart, endIdx,
preDot)`; `matchedSlash` tracks whether only trailing slashes were seen. -/
def extnameLoop : List (Nat × Char) → Int → Int → Int → Bool → Int →
    Int × Int × Int × Int
  | [], startDot, startPart, endIdx, _, preDot => (startDot, startPart, endIdx, preDot)
  | (i, c) :: rest, startDot, startPart, endIdx, matchedSlash, preDot =>
    if c = '/' then
      if matchedSlash then extnameLoop rest startDot startPart endIdx matchedSlash preDot
      else (startDot, (i : Int) + 1, endIdx, preDot)
    else
      let endIdx' := if endIdx = -1 then (i : Int) + 1 else endIdx
      if c = '.' then
        if startDot = -1 then extnameLoop rest (i : Int) startPart endIdx' false preDot
        else if preDot ≠ 1 then extnameLoop rest startDot startPart endIdx' false 1
        else extnameLoop rest startDot startPart endIdx' false preDot
      else if startDot ≠ -1 then extnameLoop rest startDot startPart endIdx' false (-1)
      else extnameLoop rest startDot startPart endIdx' false preDot

/-- Node `path.extname` (POSIX): the extension of the basename, from the
last dot to the end, empty for dotless names and leading-dot names. -/
def extnameJS (s : String) : String :=
  let r := extnameLoop s.data.enum.reverse (-1) 0 (-1) true 0
  let startDot := r.1
  let startPart := r.2.1
  let endIdx := r.2.2.1
  let preDot := r.2.2.2
  if startDot = -1 ∨ endIdx = -1 ∨ preDot = 0 ∨
      (preDot = 1 ∧ startDot = endIdx - 1 ∧ startDot = startPart + 1) then ""
  else ⟨(s.data.drop startDot.toNat).take (endIdx - startDot).toNat⟩

/-- Node `path.basename` (POSIX) for the file paths this program handles:
the part after the last slash, ignoring trailing slashes. -/
def basenameJS (s : String) : String :=
  ⟨((s.data.reverse.dropWhile (· = '/')).takeWhile (· ≠ '/')).reverse⟩

/-- Node `path.join(a, b)` restricted to the shapes this program produces
(a directory joined with a slash-free basename; inner normalization of
dot segments is not needed for these inputs). -/
def joinJS (a b : String) : String :=
  if a = "" then b
  else if a.data.getLast? = some '/' then a ++ b
  else a ++ "/" ++ b

/-- `SUPPORTED_FORMATS` from `transcribe.js`. -/
def SUPPORTED_FORMATS : List String := [".wav", ".mp3", ".m4a", ".flac", ".ogg"]

/-- `isSupportedFormat` from `transcribe.js`: membership of the lowercased
extension in the fixed supported set. -/
def isSupportedFormat (audioPath : String) : Bool :=
  SUPPORTED_FORMATS.contains (jsToLower (extnameJS audioPath))

/-- `DEFAULTS.SIZE_THRESHOLD_KB` from `transcribe.js`. -/
def SIZE_THRESHOLD_KB : Nat := 100

/-- The smart branch of `selectModel` from `transcribe.js`. The source
compares `stats.size / 1024 < DEFAULTS.SIZE_THRESHOLD_KB` in IEEE doubles;
division by 1024 is exact there, so the comparison is equivalent to
`size < 100 * 1024` on the byte size. -/
def selectModelSmart (fileSizeBytes : Nat) : String :=
  if fileSizeBytes < SIZE_THRESHOLD_KB * 1024 then "large" else "medium"

/-- `selectModel` from `transcribe.js`: an explicit model that is truthy
and not the sentinel `auto` wins; otherwise the size heuristic decides.
The `fs.statSync` byte size of the (existing) file is passed directly. -/
def selectModel (optModel : Option String) (fileSizeBytes : Nat) : String :=
  match optModel with
  | some m => if m ≠ "" ∧ m ≠ "auto" then m else selectModelSmart fileSizeBytes
  | none => selectModelSmart fileSizeBytes

/-- C8: `isSupportedFormat` accepts a path exactly when the lowercased
extension is in the fixed set; each member (and its uppercase form) is
accepted, extensions outside the set are rejected. -/
theorem C8_supported_format_membership :
    (∀ p : String,
      isSupportedFormat p = true ↔ jsToLower (extnameJS p) ∈ SUPPORTED_FORMATS)
  ∧ isSupportedFormat "a.wav" = true ∧ isSupportedFormat "a.WAV" = true
  ∧ isSupportedFormat "a.mp3" = true ∧ isSupportedFormat "a.MP3" = true
  ∧ isSupportedFormat "a.m4a" = true ∧ isSupportedFormat "a.M4A" = true
  ∧ isSupportedFormat "a.flac" = true ∧ isSupportedFormat "a.FLAC" = true
  ∧ isSupportedFormat "a.ogg" = true ∧ isSupportedFormat "a.OGG" = true
  ∧ isSupportedFormat "a.wma" = false ∧ isSupportedFormat "a.aac" = false
  ∧ isSupportedFormat "awav" = false := by
  refine ⟨?_, ?_, ?_, ?_, ?_, ?_, ?_, ?_, ?_, ?_, ?_, ?_, ?_, ?_⟩
  · intro p
    simp [isSupportedFormat, List.contains_iff_exists_mem_beq, beq_iff_eq]
  all_goals decide

/-- C2: with no explicit model override, files strictly below the 100 KB
threshold select the `large` model and files at or above it select
`medium`; exactly 102400 bytes falls in the `medium` branch. -/
theorem C2_select_model_threshold (size : Nat) :
    (size < 102400 →
        selectModel none size = "large" ∧ selectModel (some "auto") size = "large")
  ∧ (102400 ≤ size →
        selectModel none size = "medium" ∧ selectModel (some "auto") size = "medium")
  ∧ selectModel (some "auto") 102400 = "medium" := by
  refine ⟨?_, ?_, ?_⟩
  · intro h
    constructor <;> simp [selectModel, selectModelSmart, SIZE_THRESHOLD_KB, h]
  · intro h
    constructor <;> simp [selectModel, selectModelSmart, SIZE_THRESHOLD_KB, Nat.not_lt.mpr h]
  · decide

/-- Witness for C2 at both sides of the threshold. -/
theorem C2_select_model_threshold_witness :
    selectModel none 102399 = "large" ∧ selectModel (some "auto") 102400 = "medium" :=
  ⟨((C2_select_model_threshold 102399).1 (by decide)).1,
   ((C2_select_model_threshold 102400).2.1 (by decide)).2⟩


/-!
  ## String containment helpers
-/

/-- Auxiliary: appending strings concatenates their character lists. -/
theorem str_data_append (a b : String) : (a ++ b).data = a.data ++ b.data := rfl

/-- Auxiliary: string append is associative. -/
theorem str_append_assoc (a b c : String) : a ++ b ++ c = a ++ (b ++ c) := by
  show String.mk ((a.data ++ b.data) ++ c.data) = String.mk (a.data ++ (b.data ++ c.data))
  rw [List.append_assoc]

/-- Auxiliary: `listStarts` holds on a list extending the pattern. -/
theorem listStarts_append (p r : List Char) : listStarts p (p ++ r) = true := by
  induction p with
  | nil => rfl
  | cons a as ih =>
    show listStarts (a :: as) (a :: (as ++ r)) = true
    unfold listStarts
    simp [ih]

/-- Auxiliary: a pattern is found inside any surrounding concatenation. -/
theorem containsSub_append (p l r : List Char) : containsSub p (l ++ p ++ r) = true := by
  induction l with
  | nil =>
    cases hp : p with
    | nil =>
      cases hr : r with
      | nil => rfl
      | cons c cs =>
        show containsSub [] (c :: cs) = true
        unfold containsSub
        rw [Bool.or_eq_true]
        left
        rfl
    | cons c cs =>
      show containsSub (c :: cs) (c :: (cs ++ r)) = true
      unfold containsSub
      rw [Bool.or_eq_true]
      left
      exact listStarts_append (c :: cs) r
  | cons c cs ih =>
    show containsSub p (c :: (cs ++ p ++ r)) = true
    unfold containsSub
    rw [Bool.or_eq_true]
    right
    exact ih

/-- Auxiliary: substring containment of an explicit middle segment. -/
theorem strContains_middle (l pat r : String) :
    strContains (l ++ pat ++ r) pat = true := by
  unfold strContains
  rw [str_data_append, str_data_append]
  exact containsSub_append pat.data l.data r.data

/-- Auxiliary: substring containment via an explicit decomposition. -/
theorem strContains_of_eq (s pat l r : String) (h : s = l ++ pat ++ r) :
    strContains s pat = true := by
  subst h
  exact strContains_middle l pat r

/-!
  ## Whisper command construction (the transcription invoker)

  `transcribe.js` builds the command with an unconditional
  `--language` segment; the variant embedded in `README.md` appends the
  segment only when the effective language is truthy and its lowercase
  form is not the sentinel `auto`.
-/

/-- The command string built by `transcribeWithWhisper` in `transcribe.js`
(the `--language` segment is always appended, whatever the language). -/
def buildWhisperCommand (whisperPath inputPath model language outputDir : String) :
    String :=
  "\"" ++ whisperPath ++ "\" \"" ++ inputPath ++ "\"" ++
    " --model " ++ model ++
    " --language " ++ language ++
    " --output_format all" ++
    " --output_dir \"" ++ outputDir ++ "\""

/-- The command string built by `transcribeWithWhisper` in the variant
embedded in `README.md`: the `--language` segment is appended only when
the language is nonempty and its lowercase form differs from `auto`. -/
def buildWhisperCommandReadme (whisperPath inputPath model language outputDir : String) :
    String :=
  (if language ≠ "" ∧ jsToLower language ≠ "auto" then
    "\"" ++ whisperPath ++ "\" \"" ++ inputPath ++ "\"" ++ " --model " ++ model ++
      " --language " ++ language
   else
    "\"" ++ whisperPath ++ "\" \"" ++ inputPath ++ "\"" ++ " --model " ++ model) ++
    " --output_format all" ++ " --output_dir \"" ++ outputDir ++ "\""

/-- C3 counterexample: the invoker in `transcribe.js` passes the literal
word `auto` after `--language` instead of omitting the flag. -/
theorem C3_language_auto_counterexample :
    buildWhisperCommand "/usr/bin/whisper" "/tmp/voice.ogg" "small" "auto" "/tmp" =
      "\"/usr/bin/whisper\" \"/tmp/voice.ogg\" --model small --language auto" ++
        " --output_format all --output_dir \"/tmp\"" ∧
    strContains
      (buildWhisperCommand "/usr/bin/whisper" "/tmp/voice.ogg" "small" "auto" "/tmp")
      " --language auto" = true := by
  constructor
  · rfl
  · decide

/-- C3 amended: the `README.md` variant of the invoker omits the language
segment exactly when the effective language is empty or lowercases to the
`auto` sentinel, while always carrying the model, output-format and
output-directory segments; the invoker in `transcribe.js` always appends
the language segment, passing the literal language word even for `auto`. -/
theorem C3_language_flag_amended
    (whisperPath inputPath model language outputDir : String) :
    (jsToLower language = "auto" →
      buildWhisperCommandReadme whisperPath inputPath model language outputDir =
        "\"" ++ whisperPath ++ "\" \"" ++ inputPath ++ "\"" ++ " --model " ++ model ++
          " --output_format all" ++ " --output_dir \"" ++ outputDir ++ "\"")
  ∧ (language = "" →
      buildWhisperCommandReadme whisperPath inputPath model language outputDir =
        "\"" ++ whisperPath ++ "\" \"" ++ inputPath ++ "\"" ++ " --model " ++ model ++
          " --output_format all" ++ " --output_dir \"" ++ outputDir ++ "\"")
  ∧ (language ≠ "" → jsToLower language ≠ "auto" →
      buildWhisperCommandReadme whisperPath inputPath model language outputDir =
        ("\"" ++ whisperPath ++ "\" \"" ++ inputPath ++ "\"" ++ " --model " ++ model ++
          " --language " ++ language) ++
          " --output_format all" ++ " --output_dir \"" ++ outputDir ++ "\"")
  ∧ (buildWhisperCommand whisperPath inputPath model language outputDir =
      "\"" ++ whisperPath ++ "\" \"" ++ inputPath ++ "\"" ++ " --model " ++ model ++
        " --language " ++ language ++
        " --output_format all" ++ " --output_dir \"" ++ outputDir ++ "\"")
  ∧ strContains (buildWhisperCommandReadme "w" "i" "small" "auto" "d") "--language" = false
  ∧ strContains (buildWhisperCommandReadme "w" "i" "small" "de" "d") " --language de" = true
  ∧ strContains (buildWhisperCommandReadme "w" "i" "small" "auto" "d") " --model small" = true
  ∧ strContains
      (buildWhisperCommandReadme "w" "i" "small" "auto" "d") " --output_format all" = true
  ∧ strContains
      (buildWhisperCommandReadme "w" "i" "small" "auto" "d") " --output_dir \"d\"" = true := by
  refine ⟨?_, ?_, ?_, rfl, by decide, by decide, by decide, by decide, by decide⟩
  · intro h
    unfold buildWhisperCommandReadme
    rw [if_neg (by simp [h])]
  · intro h
    unfold buildWhisperCommandReadme
    rw [if_neg (by simp [h])]
  · intro h1 h2
    unfold buildWhisperCommandReadme
    rw [if_pos ⟨h1, h2⟩]

/-- Witness for C3 amended: with language `auto` the README-variant command
carries no language segment; with `de` it does. -/
theorem C3_language_flag_amended_witness :
    buildWhisperCommandReadme "w" "i" "small" "auto" "d" =
      "\"w\" \"i\" --model small --output_format all --output_dir \"d\"" ∧
    buildWhisperCommandReadme "w" "i" "small" "de" "d" =
      "\"w\" \"i\" --model small --language de --output_format all --output_dir \"d\"" :=
  ⟨(C3_language_flag_amended "w" "i" "small" "auto" "d").1 (by decide),
   (C3_language_flag_amended "w" "i" "small" "de" "d").2.2.1 (by decide) (by decide)⟩

/-!
  ## Artifact location after the external tool runs
-/

/-- JS `inputPath.replace(/\.[^/.]+$/, '.txt')`: replace a final dot
segment (one or more characters, none a dot or slash, preceded by a dot)
with `.txt`; leave the string unchanged when the regex does not match. -/
def replaceExtTxt (s : String) : String :=
  let r := s.data.reverse
  let tail := r.takeWhile (fun c => !(c == '.') && !(c == '/'))
  match r.drop tail.length with
  | '.' :: _ =>
    if tail.isEmpty then s
    else ⟨(s.data.take (s.data.length - tail.length - 1)) ++ ".txt".data⟩
  | _ => s

/-- Auxiliary: `str_append_empty`. -/
theorem str_append_empty (s : String) : s ++ "" = s := by
  show String.mk (s.data ++ []) = s
  rw [List.append_nil]

/-- Errors thrown by `transcribeWithWhisper` after the command is built:
the two distinct throw sites of the source. Both are re-wrapped by the
outer catch into a message prefixed `Whisper transcription failed: `. -/
inductive WhisperError where
  /-- `execSync` threw (non-zero exit or spawn failure), with its message. -/
  | transcriptionFailed (inner : String)
  /-- The tool exited zero but neither text-artifact candidate exists. -/
  | artifactNotFound
deriving DecidableEq

/-- The user-visible message of each error after the outer catch wraps it. -/
def whisperErrorMessage : WhisperError → String
  | .transcriptionFailed m => "Whisper transcription failed: " ++ m
  | .artifactNotFound => "Whisper transcription failed: Transcription file not found"

/-- The artifact-location logic of `transcribeWithWhisper`: derive the
text path from the input path, prefer the candidate inside the requested
output directory, fall back to the path alongside the input. -/
def locateArtifact (inputPath outputDir : String) (fsExists : String → Bool) :
    Option String :=
  let txtPath := replaceExtTxt inputPath
  let outputTxtPath := joinJS outputDir (basenameJS txtPath)
  let finalTxtPath := if fsExists outputTxtPath then outputTxtPath else txtPath
  if fsExists finalTxtPath then some finalTxtPath else none

/-- The outcome of `transcribeWithWhisper` after the command execution:
`execOk` and `fsExists` are the oracle results of `execSync` and
`fs.existsSync`. -/
def whisperPostExec (execOk : Bool) (execMsg : String) (inputPath outputDir : String)
    (fsExists : String → Bool) : Except WhisperError String :=
  if execOk then
    match locateArtifact inputPath outputDir fsExists with
    | some p => .ok p
    | none => .error .artifactNotFound
  else .error (.transcriptionFailed execMsg)

/-- C6: the text artifact is located by replacing the extension of the
input with `.txt`, preferring the output directory, falling back to the
directory of the input; when neither exists the result is the
artifact-not-found error, a constructor distinct from the non-zero-exit
failure. -/
theorem C6_artifact_location (inputPath outputDir msg : String)
    (fsExists : String → Bool) :
    (fsExists (joinJS outputDir (basenameJS (replaceExtTxt inputPath))) = true →
      whisperPostExec true msg inputPath outputDir fsExists =
        .ok (joinJS outputDir (basenameJS (replaceExtTxt inputPath))))
  ∧ (fsExists (joinJS outputDir (basenameJS (replaceExtTxt inputPath))) = false →
      fsExists (replaceExtTxt inputPath) = true →
      whisperPostExec true msg inputPath outputDir fsExists =
        .ok (replaceExtTxt inputPath))
  ∧ (fsExists (joinJS outputDir (basenameJS (replaceExtTxt inputPath))) = false →
      fsExists (replaceExtTxt inputPath) = false →
      whisperPostExec true msg inputPath outputDir fsExists =
        .error .artifactNotFound)
  ∧ whisperPostExec false msg inputPath outputDir fsExists =
      .error (.transcriptionFailed msg)
  ∧ WhisperError.artifactNotFound ≠ WhisperError.transcriptionFailed msg
  ∧ whisperErrorMessage .artifactNotFound =
      "Whisper transcription failed: Transcription file not found"
  ∧ replaceExtTxt "/tmp/voice.ogg" = "/tmp/voice.txt"
  ∧ joinJS "/out" (basenameJS "/tmp/voice.txt") = "/out/voice.txt" := by
  refine ⟨?_, ?_, ?_, rfl, fun h => WhisperError.noConfusion h, rfl, by decide, by decide⟩
  · intro h1
    simp [whisperPostExec, locateArtifact, h1]
  · intro h1 h2
    simp [whisperPostExec, locateArtifact, h1, h2]
  · intro h1 h2
    simp [whisperPostExec, locateArtifact, h1, h2]

/-- Witness for C6: the artifact is found in the output directory. -/
theorem C6_artifact_location_witness :
    whisperPostExec true "m" "/tmp/voice.ogg" "/out"
      (fun p => p == "/out/voice.txt") = .ok "/out/voice.txt" :=
  (C6_artifact_location "/tmp/voice.ogg" "/out" "m"
    (fun p => p == "/out/voice.txt")).1 (by decide)

/-!
  ## Input validation in the top-level `transcribe`
-/

/-- The decision `transcribe` makes before any external invocation:
missing input throws, an unsupported extension throws naming the
lowercased extension (or `unknown` when empty) and listing the accepted
set, otherwise control reaches `transcribeWithWhisper`. -/
inductive TranscribeOutcome where
  | fileNotFound (msg : String)
  | unsupportedFormat (msg : String)
  | invoked
deriving DecidableEq

/-- The validation prefix of `transcribe` from `transcribe.js`. -/
def transcribeCheck (audioPath : String) (fileExists : Bool) : TranscribeOutcome :=
  if fileExists = false then
    .fileNotFound ("Audio file not found: " ++ audioPath)
  else if isSupportedFormat audioPath = false then
    .unsupportedFormat ("Unsupported audio format: " ++
      (if jsToLower (extnameJS audioPath) = "" then "unknown"
       else jsToLower (extnameJS audioPath)) ++
      ". Supported formats: " ++ String.intercalate ", " SUPPORTED_FORMATS)
  else .invoked

/-- C7: an existing input with an unsupported extension makes `transcribe`
fail with the unsupported-format message — naming the extension and
listing the accepted set — and the external binary is never invoked. -/
theorem C7_unsupported_format (p : String) (h : isSupportedFormat p = false) :
    (transcribeCheck p true =
      .unsupportedFormat ("Unsupported audio format: " ++
        (if jsToLower (extnameJS p) = "" then "unknown" else jsToLower (extnameJS p)) ++
        ". Supported formats: " ++ String.intercalate ", " SUPPORTED_FORMATS))
  ∧ transcribeCheck p true ≠ .invoked
  ∧ (jsToLower (extnameJS p) ≠ "" →
      strContains
        ("Unsupported audio format: " ++
          (if jsToLower (extnameJS p) = "" then "unknown" else jsToLower (extnameJS p)) ++
          ". Supported formats: " ++ String.intercalate ", " SUPPORTED_FORMATS)
        (jsToLower (extnameJS p)) = true)
  ∧ strContains
      ("Unsupported audio format: " ++
        (if jsToLower (extnameJS p) = "" then "unknown" else jsToLower (extnameJS p)) ++
        ". Supported formats: " ++ String.intercalate ", " SUPPORTED_FORMATS)
      (String.intercalate ", " SUPPORTED_FORMATS) = true := by
  have heq : transcribeCheck p true =
      .unsupportedFormat ("Unsupported audio format: " ++
        (if jsToLower (extnameJS p) = "" then "unknown" else jsToLower (extnameJS p)) ++
        ". Supported formats: " ++ String.intercalate ", " SUPPORTED_FORMATS) := by
    simp [transcribeCheck, h]
  refine ⟨heq, ?_, ?_, ?_⟩
  · rw [heq]
    simp
  · intro hne
    rw [if_neg hne]
    apply strContains_of_eq _ _ "Unsupported audio format: "
      (". Supported formats: " ++ String.intercalate ", " SUPPORTED_FORMATS)
    exact str_append_assoc ("Unsupported audio format: " ++ jsToLower (extnameJS p))
      ". Supported formats: " (String.intercalate ", " SUPPORTED_FORMATS)
  · apply strContains_of_eq _ _
      ("Unsupported audio format: " ++
        (if jsToLower (extnameJS p) = "" then "unknown" else jsToLower (extnameJS p)) ++
        ". Supported formats: ") ""
    exact (str_append_empty _).symm

/-- Witness for C7 at a concrete unsupported input. -/
theorem C7_unsupported_format_witness :
    transcribeCheck "/tmp/a.wma" true =
      .unsupportedFormat ("Unsupported audio format: .wma. Supported formats: " ++
        ".wav, .mp3, .m4a, .flac, .ogg") :=
  (C7_unsupported_format "/tmp/a.wma" (by decide)).1

/-!
  ## Command line argument parsing (`parseArgs` in `transcribe.js`)
-/

/-- JS `String.prototype.startsWith`. -/
def jsStartsWith (s pre : String) : Bool := listStarts pre.data s.data

/-- JS truthiness of the `audioPath` variable (`null` initially, possibly
an empty string after assignment): `!audioPath`. -/
def jsFalsyOpt : Option String → Bool
  | none => true
  | some s => s = ""

/-- The flat options record of `parseArgs` in `transcribe.js`
(`{ model: null, language: null, outputDir: null, smartModel: true }`). -/
structure CliOptions where
  model : Option String
  language : Option String
  outputDir : Option String
  smartModel : Bool
deriving DecidableEq

/-- The observable outcome of `parseArgs`: either one of the
`process.exit(0)` branches (help, version, check) or the returned
`{ audioPath, options }` record. -/
inductive ParseResult where
  | exited (code : Nat)
  | parsed (audioPath : Option String) (options : CliOptions)
deriving DecidableEq

/-- The argument loop of `parseArgs` from `transcribe.js`: `args[++i]`
consumes the following element (becoming `undefined`, modelled `none`,
when past the end), `--model` also clears `smartModel`, later
`--smart-model` and `--no-smart-model` overwrite it, and the first
non-dash argument while `audioPath` is falsy becomes the audio path. -/
def parseArgsLoop : List String → Option String → CliOptions → ParseResult
  | [], audioPath, opts => .parsed audioPath opts
  | arg :: rest, audioPath, opts =>
    if arg = "--model" then
      match rest with
      | v :: rest2 =>
        parseArgsLoop rest2 audioPath { opts with model := some v, smartModel := false }
      | [] => parseArgsLoop [] audioPath { opts with model := none, smartModel := false }
    else if arg = "--language" ∨ arg = "--lang" ∨ arg = "-l" then
      match rest with
      | v :: rest2 => parseArgsLoop rest2 audioPath { opts with language := some v }
      | [] => parseArgsLoop [] audioPath { opts with language := none }
    else if arg = "--output-dir" ∨ arg = "--output" ∨ arg = "-o" then
      match rest with
      | v :: rest2 => parseArgsLoop rest2 audioPath { opts with outputDir := some v }
      | [] => parseArgsLoop [] audioPath { opts with outputDir := none }
    else if arg = "--smart-model" then
      parseArgsLoop rest audioPath { opts with smartModel := true }
    else if arg = "--no-smart-model" then
      parseArgsLoop rest audioPath { opts with smartModel := false }
    else if arg = "--help" ∨ arg = "-h" then .exited 0
    else if arg = "--version" ∨ arg = "-v" then .exited 0
    else if arg = "--check" ∨ arg = "-c" then .exited 0
    else if jsStartsWith arg "-" = false ∧ jsFalsyOpt audioPath = true then
      parseArgsLoop rest (some arg) opts
    else parseArgsLoop rest audioPath opts

/-- `parseArgs` from `transcribe.js`. -/
def parseArgs (args : List String) : ParseResult :=
  parseArgsLoop args none ⟨none, none, none, true⟩

/-- Auxiliary invariant: without any `--smart-model` token among the
arguments, the loop preserves (model unset or smart selection disabled). -/
theorem parseArgsLoop_smart_inv :
    ∀ (l : List String) (ap : Option String) (o : CliOptions),
      "--smart-model" ∉ l →
      (o.model = none ∨ o.smartModel = false) →
      ∀ ap' o', parseArgsLoop l ap o = .parsed ap' o' →
        o'.model = none ∨ o'.smartModel = false := by
  intro l ap o
  induction l, ap, o using parseArgsLoop.induct with
  | case1 ap o =>
    intro _ hinv ap' o' h
    injection h with h1 h2
    subst h2
    exact hinv
  | case2 ap o v rest2 ih =>
    intro hmem hinv ap' o' h
    exact ih (fun hc => hmem (List.mem_cons_of_mem _ (List.mem_cons_of_mem _ hc)))
      (Or.inr rfl) ap' o' h
  | case3 ap o ih =>
    intro _ _ ap' o' h
    exact ih (List.not_mem_nil _) (Or.inl rfl) ap' o' h
  | case4 arg ap o h1 h2 v rest2 ih =>
    intro hmem hinv ap' o' h
    rcases h2 with rfl | rfl | rfl <;>
      exact ih (fun hc => hmem (List.mem_cons_of_mem _ (List.mem_cons_of_mem _ hc)))
        hinv ap' o' h
  | case5 arg ap o h1 h2 ih =>
    intro _ hinv ap' o' h
    rcases h2 with rfl | rfl | rfl <;>
      exact ih (List.not_mem_nil _) hinv ap' o' h
  | case6 arg ap o h1 h2 h3 v rest2 ih =>
    intro hmem hinv ap' o' h
    rcases h3 with rfl | rfl | rfl <;>
      exact ih (fun hc => hmem (List.mem_cons_of_mem _ (List.mem_cons_of_mem _ hc)))
        hinv ap' o' h
  | case7 arg ap o h1 h2 h3 ih =>
    intro _ hinv ap' o' h
    rcases h3 with rfl | rfl | rfl <;>
      exact ih (List.not_mem_nil _) hinv ap' o' h
  | case8 rest ap o h1 h2 h3 ih =>
    intro hmem _ _ _ _
    exact absurd (List.mem_cons_self _ _) hmem
  | case9 rest ap o h1 h2 h3 h4 ih =>
    intro hmem hinv ap' o' h
    have hstep : parseArgsLoop ("--no-smart-model" :: rest) ap o =
        parseArgsLoop rest ap { o with smartModel := false } := by
      cases rest <;> rfl
    rw [hstep] at h
    exact ih (fun hc => hmem (List.mem_cons_of_mem _ hc)) (Or.inr rfl) ap' o' h
  | case10 arg rest ap o h1 h2 h3 h4 h5 hpos =>
    intro _ _ ap' o' h
    rcases hpos with rfl | rfl <;>
      (rw [show parseArgsLoop _ ap o = ParseResult.exited 0 from by cases rest <;> rfl] at h
       exact ParseResult.noConfusion h)
  | case11 arg rest ap o h1 h2 h3 h4 h5 h6 hpos =>
    intro _ _ ap' o' h
    rcases hpos with rfl | rfl <;>
      (rw [show parseArgsLoop _ ap o = ParseResult.exited 0 from by cases rest <;> rfl] at h
       exact ParseResult.noConfusion h)
  | case12 arg rest ap o h1 h2 h3 h4 h5 h6 h7 hpos =>
    intro _ _ ap' o' h
    rcases hpos with rfl | rfl <;>
      (rw [show parseArgsLoop _ ap o = ParseResult.exited 0 from by cases rest <;> rfl] at h
       exact ParseResult.noConfusion h)
  | case13 arg rest ap o h1 h2 h3 h4 h5 h6 h7 h8 h9 ih =>
    intro hmem hinv ap' o' h
    rw [parseArgsLoop.eq_def] at h
    split at h
    all_goals simp_all
  | case14 arg rest ap o h1 h2 h3 h4 h5 h6 h7 h8 h9 ih =>
    intro hmem hinv ap' o' h
    rw [parseArgsLoop.eq_def] at h
    split at h
    all_goals try simp_all
    split at h
    · rename_i hc
      exact absurd (h9 hc.1) (by simp [hc.2])
    · exact ih ap' o' h

/-- C9 counterexample: an explicit `--model` flag followed by
`--smart-model` yields options with the model set and `smartModel` still
true, refuting the unconditional invariant. -/
theorem C9_smart_model_counterexample :
    parseArgs ["--model", "tiny", "--smart-model"] =
      .parsed none ⟨some "tiny", none, none, true⟩ := rfl

/-- C9 amended: for every argument list containing no `--smart-model`
token, an explicitly set model implies `smartModel` is false in the
returned options (a later `--smart-model` flag re-enables it, which is
what breaks the unconditional form). -/
theorem C9_model_disables_smart_amended (args : List String)
    (hmem : "--smart-model" ∉ args) (ap : Option String) (opts : CliOptions)
    (h : parseArgs args = .parsed ap opts) (hmodel : opts.model ≠ none) :
    opts.smartModel = false := by
  rcases parseArgsLoop_smart_inv args none ⟨none, none, none, true⟩ hmem
      (Or.inl rfl) ap opts h with h1 | h1
  · exact absurd h1 hmodel
  · exact h1

/-- Witness for C9 amended at a concrete argument list. -/
theorem C9_model_disables_smart_amended_witness :
    (CliOptions.mk (some "tiny") none none false).smartModel = false :=
  C9_model_disables_smart_amended ["--model", "tiny"] (by decide) none
    (CliOptions.mk (some "tiny") none none false) rfl (by decide)
